import Mathlib

/-!
Verification development for the Indian-Unicorn chatbot (src/chatbot.py).

The Python source is shallowly embedded: pandas DataFrames become lists of
`Row`, the mutable `Chatbot`/`MetricsTracker` objects become explicit state
records threaded through pure functions, and the one failure mode that can
escape a turn (an invalid regular expression built from the query keywords)
is modelled with `Except String`.  Python string operations (`in`, `.lower()`,
`.split()`, `.strip()`, `re.sub` character filtering) are re-implemented over
`List Char` so that every definition is executable and kernel-reducible.
-/

/-! ### String primitives (models of Python str operations) -/

/-- Bool test that `nd` is a prefix of the second list (used to model
Python substring search). -/
def listPre : List Char → List Char → Bool
  | [], _ => true
  | _ :: _, [] => false
  | a :: as, b :: bs => a == b && listPre as bs

/-- Bool test that `nd` occurs contiguously somewhere in the haystack,
the semantics of Python `nd in hay` for strings. -/
def occursIn (nd : List Char) : List Char → Bool
  | [] => listPre nd []
  | c :: hs => listPre nd (c :: hs) || occursIn nd hs

/-- Python `needle in hay` on strings. -/
def strContains (hay needle : String) : Bool :=
  occursIn needle.toList hay.toList

/-- Python `s.lower()` (ASCII case folding, the only case the data uses). -/
def strLower (s : String) : String :=
  String.mk (s.toList.map Char.toLower)

/-- Python `x in xs` for a list of strings. -/
def strIn (x : String) : List String → Bool
  | [] => false
  | y :: ys => x == y || strIn x ys

/-- Helper for `splitWs`: accumulates the current word (reversed). -/
def splitWsAux : List Char → List Char → List String
  | [], acc => if acc.isEmpty then [] else [String.mk acc.reverse]
  | c :: cs, acc =>
    if c.isWhitespace then
      if acc.isEmpty then splitWsAux cs [] else String.mk acc.reverse :: splitWsAux cs []
    else splitWsAux cs (c :: acc)

/-- Python `s.split()` with no separator: split on whitespace runs and drop
empty tokens. -/
def splitWs (s : String) : List String :=
  splitWsAux s.toList []

/-- Characters kept by `sanitize_input`: the class `[\w\s\?\.,-]` of
`re.sub` in the source (ASCII reading of `\w`). -/
def keepChar (c : Char) : Bool :=
  c.isAlphanum || c == '_' || c.isWhitespace || c == '?' || c == '.' || c == ',' || c == '-'

/-- Python `.strip()` on a character list. -/
def trimCharList (l : List Char) : List Char :=
  ((l.dropWhile Char.isWhitespace).reverse.dropWhile Char.isWhitespace).reverse

/-- `Chatbot.sanitize_input`: delete every character outside the class
`[\w\s\?\.,-]` (via `re.sub` with empty replacement), then strip. -/
def sanitize_input (user_input : String) : String :=
  String.mk (trimCharList (user_input.toList.filter keepChar))

/-! ### Data model -/

/-- One row of the dataset.  The four columns the code reads by name are
explicit; `extra` carries the string representations of any further columns
(scanned only by the generic keyword pass). -/
structure Row where
  company : String
  company_background : String
  primary_sector : String
  location : String
  extra : List String
deriving DecidableEq

/-- All column values of a row as strings, as seen by
`x.astype(str)` in `DataEngine.search_broad`. -/
def rowValues (r : Row) : List String :=
  [r.company, r.company_background, r.primary_sector, r.location] ++ r.extra

/-! ### MetricsTracker -/

/-- State of the `MetricsTracker` singleton. -/
structure MetricsTracker where
  total_queries : Nat
  clarifications_triggered : Nat
  errors : Nat
  avg_latency_ms : ℚ
  latencies : List ℚ
deriving DecidableEq

/-- `MetricsTracker.__init__`. -/
def initialMetrics : MetricsTracker :=
  { total_queries := 0, clarifications_triggered := 0, errors := 0,
    avg_latency_ms := 0, latencies := [] }

/-- `MetricsTracker.log_query`: increments the counters, appends the latency
and recomputes the running average from the full history. -/
def MetricsTracker.log_query (t : MetricsTracker) (latency_ms : ℚ)
    (is_clarification : Bool) (is_error : Bool) : MetricsTracker :=
  let new_latencies := t.latencies ++ [latency_ms]
  { total_queries := t.total_queries + 1,
    clarifications_triggered := t.clarifications_triggered + (if is_clarification then 1 else 0),
    errors := t.errors + (if is_error then 1 else 0),
    latencies := new_latencies,
    avg_latency_ms :=
      if new_latencies.isEmpty then t.avg_latency_ms
      else (new_latencies.foldl (fun a b => a + b) 0) / (new_latencies.length : ℚ) }

/-! ### Static tables of DataEngine -/

/-- `self.sectors_map` from `DataEngine.__init__`. -/
def defaultSectorsMap : List (String × List String) :=
  [("fintech",
     ["Payments", "Alternative Lending", "Banking Tech", "Investment Tech",
      "Internet First Insurance Platforms", "Finance & Accounting Tech", "Cryptocurrencies"]),
   ("logistics", ["Logistics Tech", "Road Transport Tech"]),
   ("ecommerce",
     ["Horizontal E-Commerce", "B2B E-Commerce", "Auto E-Commerce & Content", "Online Grocery"]),
   ("edtech", ["K-12 EdTech", "Test Preparation Tech", "Continued Learning"]),
   ("health", ["Healthcare Booking Platforms", "Infectious Diseases", "Healthcare IT"])]

/-- The stop-word set of `DataEngine.search_broad`. -/
def stop_words : List String :=
  ["what", "does", "do", "tell", "me", "about", "is", "the", "a", "an"]

/-- The sector-filter accumulation loop of `DataEngine.search_broad`
(`for key, sectors in self.sectors_map.items(): if key in query: extend`). -/
def sector_filter_of (sm : List (String × List String)) (q : String) : List String :=
  sm.foldl (fun acc p => if strContains q p.1 then acc ++ p.2 else acc) []

/-- The keyword list of `DataEngine.search_broad`:
`[w for w in query.split() if w not in stop_words]` (query already lowered). -/
def keywords_of (q : String) : List String :=
  (splitWs q).filter fun w => !strIn w stop_words

/-! ### The regex fragment reachable from sanitized keywords

`search_broad` joins the keywords with the pipe character into one pandas
pattern and matches it
with `str.contains(..., case=False, regex default)`.  Sanitized input can only
contain word characters, whitespace and `? . , -`, and `|` never survives
sanitization, so each keyword is one alternation branch and the only regex
metacharacters that can occur are `.` (any character except a newline) and
`?` (previous atom optional; a leading `?` or a third consecutive `?` is a
compile error in Python `re`, which raises and escapes the turn). -/

/-- A regex atom of the reachable fragment. -/
inductive RAtom where
  | dot : RAtom
  | lit : Char → RAtom
deriving DecidableEq

/-- Whether an atom matches one character (Python `.` does not match a
newline without DOTALL). -/
def atomMatch : RAtom → Char → Bool
  | RAtom.dot, c => c != '\n'
  | RAtom.lit a, c => a == c

/-- One alternation branch: atoms, each with an optional flag (`?`). -/
def Branch : Type := List (RAtom × Bool)

/-- Emit a pending atom together with its optionality. -/
def flushPend : Option (RAtom × Nat) → List (RAtom × Bool)
  | none => []
  | some (a, n) => [(a, decide (1 ≤ n))]

/-- Parser for one branch.  `pend` is the last atom seen together with the
number of `?` already attached to it (`a??` is a lazy optional, still one
match-optional atom; a third `?` is Python `multiple repeat`, a `?` with no
atom is `nothing to repeat`). -/
def parseBranchAux : Option (RAtom × Nat) → List Char → Except String (List (RAtom × Bool))
  | pend, [] => Except.ok (flushPend pend)
  | pend, c :: rest =>
    if c == '?' then
      match pend with
      | none => Except.error "nothing to repeat"
      | some (a, n) =>
        if 2 ≤ n then Except.error "multiple repeat"
        else parseBranchAux (some (a, n + 1)) rest
    else
      match parseBranchAux (some ((if c == '.' then RAtom.dot else RAtom.lit c), 0)) rest with
      | Except.error e => Except.error e
      | Except.ok b => Except.ok (flushPend pend ++ b)

/-- Parse one keyword as an alternation branch. -/
def parseBranch (l : List Char) : Except String (List (RAtom × Bool)) :=
  parseBranchAux none l

/-- Parse the keywords joined with the pipe character: every keyword is
one branch; any branch
error aborts the whole pattern (Python compiles the joined pattern once). -/
def parsePattern : List String → Except String (List (List (RAtom × Bool)))
  | [] => Except.ok []
  | kw :: rest =>
    match parseBranch kw.toList, parsePattern rest with
    | Except.ok b, Except.ok bs => Except.ok (b :: bs)
    | Except.error e, _ => Except.error e
    | _, Except.error e => Except.error e

/-- Does a branch match some prefix of `s`?  An optional atom may be
skipped or consumed. -/
def matchSeq : List (RAtom × Bool) → List Char → Bool
  | [], _ => true
  | (_, opt) :: rest, [] => opt && matchSeq rest []
  | (a, opt) :: rest, c :: cs =>
    (opt && matchSeq rest (c :: cs)) || (atomMatch a c && matchSeq rest cs)

/-- `re.search` over the alternation: some branch matches at some
position of `s`. -/
def searchFrom (branches : List (List (RAtom × Bool))) : List Char → Bool
  | [] => branches.any fun b => matchSeq b []
  | c :: cs => (branches.any fun b => matchSeq b (c :: cs)) || searchFrom branches cs

/-- The row mask of the keyword pass: some column value matches the pattern
case-insensitively (`case=False`, keywords are already lowercase). -/
def rowKept (branches : List (List (RAtom × Bool))) (r : Row) : Bool :=
  (rowValues r).any fun v => searchFrom branches (strLower v).toList

/-! ### DataEngine operations -/

/-- Company order of `unique()` over the Company column
(first-appearance order). -/
def uniqueCompanies (df : List Row) : List String :=
  df.foldl (fun acc r => if strIn r.company acc then acc else acc ++ [r.company]) []

/-- The index `{name.lower(): name for name in unique}`: a Python dict, so
keys are unique, keep first-insertion position and last value. -/
def buildCompanyNames (df : List Row) : List (String × String) :=
  (uniqueCompanies df).foldl
    (fun acc n =>
      if acc.any (fun p => p.1 == strLower n) then
        acc.map fun p => if p.1 == strLower n then (p.1, n) else p
      else acc ++ [(strLower n, n)])
    []

/-- `DataEngine.get_company_details`.  `if real_name:` is Python truthiness,
so an empty canonical name behaves like a missed lookup. -/
def get_company_details (df : List Row) (company_names : List (String × String))
    (company_name_lower : String) : List Row :=
  match company_names.lookup company_name_lower with
  | some real_name => if real_name = "" then [] else df.filter fun r => r.company == real_name
  | none => []

/-- `DataEngine.filter_data`: location narrowing of a prior result set.
The pandas patterns are fixed alternations of literals matched
case-insensitively with `na=False`; all modelled values are strings. -/
def filter_data (df_subset : List Row) (query : String) : List Row :=
  let q := strLower query
  if strContains q "bangalore" || strContains q "bengaluru" then
    df_subset.filter fun r => strContains (strLower r.location) "bengaluru"
  else if strContains q "mumbai" then
    df_subset.filter fun r => strContains (strLower r.location) "mumbai"
  else if strContains q "delhi" || strContains q "ncr" then
    df_subset.filter fun r =>
      strContains (strLower r.location) "delhi" || strContains (strLower r.location) "noida" ||
        strContains (strLower r.location) "gurugram"
  else df_subset

/-- `DataEngine.search_broad`: sector pass first (short-circuits when the
accumulated sector list is non-empty), then the keyword pass, whose joined
pattern may fail to compile (`Except.error` models the raised exception). -/
def search_broad (sm : List (String × List String)) (df : List Row) (query : String) :
    Except String (List Row) :=
  let q := strLower query
  let sf := sector_filter_of sm q
  if sf.isEmpty then
    let kws := keywords_of q
    if kws.isEmpty then Except.ok df
    else
      match parsePattern kws with
      | Except.error e => Except.error e
      | Except.ok branches => Except.ok (df.filter fun r => rowKept branches r)
  else Except.ok (df.filter fun r => strIn r.primary_sector sf)

/-- One formatted entry of `DataEngine.format_results`. -/
def entryBlock (r : Row) : String :=
  "- Name: " ++ r.company ++ "\n  Description: " ++ r.company_background ++
    "\n  Sector: " ++ r.primary_sector ++ "\n  Location: " ++ r.location ++ "\n\n"

/-- `DataEngine.format_results`: sentinel for the empty set, otherwise the
header plus at most the first 5 rows (`df.head(5)`). -/
def format_results (df : List Row) : String :=
  if df.isEmpty then "No matching companies found."
  else "Found the following companies:\n" ++ String.join ((df.take 5).map entryBlock)

/-! ### LLMClient (the mock response synthesizer) -/

/-- The clarification prompt of `LLMClient.generate_response`. -/
def clarificationText : String :=
  "Could you verify which specific sector or criteria you are looking for? (e.g., Valuation, Sector, Location)"

/-- The ambiguity condition of `LLMClient.generate_response`: some trigger
word present, neither sector word present (the nested `if`s of the source
collapse to this conjunction because the inner body returns). -/
def ambiguityCond (lower_query : String) : Bool :=
  (["best", "top", "good", "suggest"].any fun x => strContains lower_query x) &&
    (!strContains lower_query "fintech" && !strContains lower_query "logistics")

/-- Length bound used for the termination of `namesAux`. -/
theorem myDropWhileLen (p : Char → Bool) : ∀ l : List Char, (l.dropWhile p).length ≤ l.length := by
  intro l
  induction l with
  | nil => simp [List.dropWhile]
  | cons c cs ih =>
    simp only [List.dropWhile]
    cases p c
    · simp
    · simp
      omega

/-- `re.findall(r"Name: (.*)", context)`: scan for `"Name: "`, capture to the
end of the line, resume at the newline. -/
def namesAux : List Char → List String
  | [] => []
  | c :: cs =>
    if listPre ("Name: ".toList) (c :: cs) then
      String.mk ((cs.drop 5).takeWhile fun ch => ch != '\n') ::
        namesAux ((cs.drop 5).dropWhile fun ch => ch != '\n')
    else namesAux cs
termination_by l => l.length
decreasing_by
  · simp only [List.length_cons]
    apply Nat.lt_succ_of_le
    exact le_trans (myDropWhileLen _ _) (by rw [List.length_drop]; omega)
  · simp only [List.length_cons]
    omega

/-- All captures of `re.findall(r"Name: (.*)", context)`. -/
def findallNames (s : String) : List String :=
  namesAux s.toList

/-- `LLMClient.generate_response` (the mock rule table; the unused
system-prompt argument is dropped). -/
def generate_response (user_query : String) (context : String) : String :=
  let lower_query := strLower user_query
  if ambiguityCond lower_query then clarificationText
  else if strContains context "No matching companies" then
    "I couldn\x27t find any companies matching that description in the dataset."
  else if strContains lower_query "which of these" then
    match findallNames context with
    | [] => "None of the previously listed companies match that criterion."
    | c :: cs =>
      "Based on your previous query, the companies matching your criteria are: " ++
        String.intercalate ", " (c :: cs) ++ "."
  else
    "Here is the information I found:\n\n" ++ context ++
      "\nWould you like to know more about any of these?"

/-! ### Chatbot core -/

/-- The mutable state of one `Chatbot` session together with its
`DataEngine` attributes (`df`, `company_names`, `sectors_map` are assigned
in the constructors and, like any attribute, mutable in principle). -/
structure BotState where
  df : List Row
  company_names : List (String × String)
  sectors_map : List (String × List String)
  history : List String
  current_context_df : Option (List Row)
deriving DecidableEq

/-- `Chatbot.__init__` over an already-loaded dataset. -/
def mkChatbot (df : List Row) : BotState :=
  { df := df, company_names := buildCompanyNames df, sectors_map := defaultSectorsMap,
    history := [], current_context_df := none }

/-- The result of one successful `process_message` call (the QueryOutcome
of the spec): new states plus the values the turn produced and logged. -/
structure TurnResult where
  bot : BotState
  tracker : MetricsTracker
  response_df : List Row
  response : String
  matched_company : Option String
  is_follow_up : Bool
deriving DecidableEq

/-- The entity scan of `process_message`: first index key (dict insertion
order) occurring in the lowered input. -/
def find_company (company_names : List (String × String)) (lower_input : String) :
    Option (String × String) :=
  company_names.find? fun p => strContains lower_input p.1

/-- The clarification sniff of `process_message`:
`"?" in response and "verify" in response`. -/
def is_clarification_of (response : String) : Bool :=
  strContains response "?" && strContains response "verify"

/-- The broad-search arm of Step 2: run `search_broad`; a non-empty result
overwrites the stored context, an empty one leaves it untouched. -/
def broadStep (bot : BotState) (clean_input : String) :
    Except String (List Row × Option (List Row)) :=
  (search_broad bot.sectors_map bot.df clean_input).map fun rdf =>
    (rdf, if rdf.isEmpty then bot.current_context_df else some rdf)

/-- Step 2 of `process_message` (data retrieval), in source priority order:
entity match, then follow-up over a present prior context, else broad
search.  Returns the response rows and the new stored context. -/
def retrieve (bot : BotState) (clean_input : String) (matched_company : Option String)
    (is_follow_up : Bool) : Except String (List Row × Option (List Row)) :=
  match matched_company with
  | some name =>
    let rdf := get_company_details bot.df bot.company_names name
    Except.ok (rdf, some rdf)
  | none =>
    match is_follow_up, bot.current_context_df with
    | true, some ctx => Except.ok (filter_data ctx clean_input, some ctx)
    | true, none => broadStep bot clean_input
    | false, _ => broadStep bot clean_input

/-- Steps 3 and 4 of `process_message`: format, synthesize the reply and
log the turn (`is_error` is never passed, hence `false`). -/
def finishTurn (bot : BotState) (tracker : MetricsTracker) (clean_input : String)
    (matched_company : Option String) (is_follow_up : Bool) (latency_ms : ℚ)
    (pr : List Row × Option (List Row)) : TurnResult :=
  let context_str := format_results pr.1
  let response := generate_response clean_input context_str
  { bot := { bot with current_context_df := pr.2 },
    tracker := tracker.log_query latency_ms (is_clarification_of response) false,
    response_df := pr.1,
    response := response,
    matched_company := matched_company,
    is_follow_up := is_follow_up }

/-- `Chatbot.process_message`.  The elapsed latency is an input of the model
(the source measures wall-clock time).  `Except.error` is an exception
escaping the turn, such as the regex compile error of the keyword pass. -/
def process_message (bot : BotState) (tracker : MetricsTracker) (user_input : String)
    (latency_ms : ℚ) : Except String TurnResult :=
  let clean_input := sanitize_input user_input
  let lower_input := strLower clean_input
  let matched_company := (find_company bot.company_names lower_input).map Prod.fst
  let is_follow_up := strContains lower_input "these" || strContains lower_input "they"
  Except.map (finishTurn bot tracker clean_input matched_company is_follow_up latency_ms)
    (retrieve bot clean_input matched_company is_follow_up)

/-- One iteration of the `__main__` read loop: `print(f"Bot: ...")` on
success, `except Exception as e: print(f"Error: {e}")` otherwise, and the
loop continues with the same objects. -/
def driverStep (bot : BotState) (tracker : MetricsTracker) (raw : String) (latency_ms : ℚ) :
    BotState × MetricsTracker × String :=
  match process_message bot tracker raw latency_ms with
  | Except.ok r => (r.bot, r.tracker, "Bot: " ++ r.response)
  | Except.error e => (bot, tracker, "Error: " ++ e)

/-! ### Spec-side definition for the keyword pass (refinement target)

The spec describes the keyword pass as literal substring matching; the code
actually matches the joined keywords as a regular expression.  `keptSpec` is
the spec wording, to be compared with `rowKept` over the parsed pattern. -/

/-- The branch a keyword denotes when it is taken literally
(no metacharacters): each character is a mandatory literal atom. -/
def litBranch (l : List Char) : List (RAtom × Bool) :=
  l.map fun c => (RAtom.lit c, false)

/-- Spec wording of the keyword pass: a row is kept iff at least one keyword
occurs as a case-insensitive literal substring of the string representation
of at least one column value. -/
def keptSpec (kws : List String) (r : Row) : Bool :=
  (rowValues r).any fun v => kws.any fun kw => strContains (strLower v) kw

/-! ### Concrete data used by witnesses and counterexamples -/

/-- A company whose background happens to contain the word `verify`. -/
def rowAcme : Row :=
  { company := "Acme", company_background := "we verify things",
    primary_sector := "SectorX", location := "LocX", extra := [] }

/-- A company whose name is a prefix of the name of another company. -/
def rowOla : Row :=
  { company := "Ola", company_background := "ride hailing",
    primary_sector := "Mobility", location := "Bengaluru", extra := [] }

/-- A company whose name contains the name of `rowOla` as a substring. -/
def rowOlaE : Row :=
  { company := "Ola Electric", company_background := "electric scooters",
    primary_sector := "Automotive", location := "Bengaluru", extra := [] }

/-- A row whose only interesting value is matched by the regex `x.z` but
does not contain the literal substring `x.z`. -/
def rowXyz : Row :=
  { company := "xyzcorp", company_background := "bbb",
    primary_sector := "ccc", location := "ddd", extra := [] }

/-- A session over the two-Ola dataset. -/
def botOla : BotState :=
  mkChatbot [rowOla, rowOlaE]

/-- A session over the `rowAcme` dataset with a stored prior context. -/
def botCtx : BotState :=
  { mkChatbot [rowAcme] with current_context_df := some [rowAcme] }

/-- The turn produced by the query `suggest something good` on an empty
dataset (used to instantiate the C2 theorem at a concrete input). -/
def c2turn : TurnResult :=
  finishTurn (mkChatbot []) initialMetrics "suggest something good" none false 0 ([], none)

/-! ### General helper lemmas -/

/-- Mapping two pointwise-equal projections over the optional result of a
mapped `Except` computation gives the same value. -/
theorem except_map_toOption_congr {A B C : Type} (e : Except String A) (f : A → B)
    (g h : B → C) (hp : ∀ a, g (f a) = h (f a)) :
    (Except.map f e).toOption.map g = (Except.map f e).toOption.map h := by
  cases e with
  | error err => rfl
  | ok a => simp [Except.map, Except.toOption, hp a]

/-- Inversion for a successful mapped `Except` computation. -/
theorem except_map_eq_ok {A B : Type} {e : Except String A} {f : A → B} {b : B}
    (h : Except.map f e = Except.ok b) : ∃ a, e = Except.ok a ∧ b = f a := by
  cases e with
  | error err => simp [Except.map] at h
  | ok a =>
    refine ⟨a, rfl, ?_⟩
    simp [Except.map] at h
    exact h.symm

/-- `List.any` only depends on the pointwise values of its predicate. -/
theorem myAnyCongr {α : Type} (l : List α) (f g : α → Bool) (h : ∀ x ∈ l, f x = g x) :
    l.any f = l.any g := by
  induction l with
  | nil => rfl
  | cons a t ih =>
    simp only [List.any_cons]
    rw [h a (by simp), ih fun x hx => h x (by simp [hx])]

/-- `List.any` over a mapped list. -/
theorem myAnyMap {α β : Type} (l : List α) (f : α → β) (p : β → Bool) :
    (l.map f).any p = l.any fun x => p (f x) := by
  induction l with
  | nil => rfl
  | cons a t ih => simp only [List.map_cons, List.any_cons, ih]

/-- `List.any` distributes over a pointwise disjunction. -/
theorem myAnyOr {α : Type} (l : List α) (f g : α → Bool) :
    (l.any fun x => f x || g x) = (l.any f || l.any g) := by
  induction l with
  | nil => rfl
  | cons a t ih =>
    simp only [List.any_cons, ih]
    cases f a <;> cases g a <;> simp

/-- `List.filter` only depends on the pointwise values of its predicate. -/
theorem myFilterCongr {α : Type} (l : List α) (p q : α → Bool) (h : ∀ x ∈ l, p x = q x) :
    l.filter p = l.filter q := by
  induction l with
  | nil => rfl
  | cons a t ih =>
    simp only [List.filter_cons]
    rw [h a (by simp), ih fun x hx => h x (by simp [hx])]

/-- `strIn` over an appended list. -/
theorem strIn_append (x : String) : ∀ l₁ l₂ : List String,
    strIn x (l₁ ++ l₂) = (strIn x l₁ || strIn x l₂) := by
  intro l₁ l₂
  induction l₁ with
  | nil => simp [strIn]
  | cons a t ih => simp [strIn, ih, Bool.or_assoc]

/-! ### Lemmas about the sector-filter loop -/

/-- If no sector key occurs in the query, the loop adds nothing. -/
theorem sector_foldl_nil {q : String} : ∀ (sm : List (String × List String)) (acc : List String),
    sm.any (fun p => strContains q p.1) = false →
    sm.foldl (fun a p => if strContains q p.1 then a ++ p.2 else a) acc = acc := by
  intro sm
  induction sm with
  | nil => intro acc _; rfl
  | cons p t ih =>
    intro acc h
    simp only [List.any_cons, Bool.or_eq_false_iff] at h
    simp only [List.foldl_cons, h.1, if_false]
    exact ih acc h.2

/-- If every sector list is non-empty and some key occurs in the query (or
the accumulator is already non-empty), the loop result is non-empty. -/
theorem sector_foldl_ne_nil {q : String} : ∀ (sm : List (String × List String)) (acc : List String),
    (∀ p ∈ sm, ¬ p.2 = []) →
    (¬ acc = [] ∨ sm.any (fun p => strContains q p.1) = true) →
    ¬ sm.foldl (fun a p => if strContains q p.1 then a ++ p.2 else a) acc = [] := by
  intro sm
  induction sm with
  | nil =>
    intro acc _ hd
    cases hd with
    | inl h => simpa using h
    | inr h => simp at h
  | cons p t ih =>
    intro acc hs hd
    simp only [List.foldl_cons]
    by_cases hc : strContains q p.1 = true
    · rw [if_pos hc]
      refine ih (acc ++ p.2) (fun x hx => hs x (by simp [hx])) (Or.inl ?_)
      rw [List.append_eq_nil]
      intro hand
      exact hs p (by simp) hand.2
    · rw [if_neg hc]
      refine ih acc (fun x hx => hs x (by simp [hx])) ?_
      cases hd with
      | inl h => exact Or.inl h
      | inr h =>
        simp only [List.any_cons, Bool.or_eq_true] at h
        cases h with
        | inl h' => exact absurd h' hc
        | inr h' => exact Or.inr h'

/-- Membership in the accumulated sector filter, phrased as the union of the
sector lists of the matched keys. -/
theorem sector_foldl_strIn {q : String} (x : String) :
    ∀ (sm : List (String × List String)) (acc : List String),
    strIn x (sm.foldl (fun a p => if strContains q p.1 then a ++ p.2 else a) acc) =
      (strIn x acc || sm.any fun p => strContains q p.1 && strIn x p.2) := by
  intro sm
  induction sm with
  | nil => intro acc; simp
  | cons p t ih =>
    intro acc
    simp only [List.foldl_cons, List.any_cons]
    by_cases hc : strContains q p.1 = true
    · rw [if_pos hc, ih, strIn_append, hc]
      simp [Bool.or_assoc]
    · rw [if_neg hc, ih]
      simp only [Bool.not_eq_true] at hc
      rw [hc]
      simp

/-! ### Entity index lemma -/

/-- The pair found by the entity scan is the first pair with its key, so the
dict lookup performed by `get_company_details` returns exactly its value. -/
theorem find_company_lookup : ∀ (idx : List (String × String)) (lq k v : String),
    find_company idx lq = some (k, v) → idx.lookup k = some v := by
  intro idx
  induction idx with
  | nil => intro lq k v h; simp [find_company] at h
  | cons p t ih =>
    intro lq k v h
    obtain ⟨k1, v1⟩ := p
    have h' : List.find? (fun q : String × String => strContains lq q.1) ((k1, v1) :: t) =
        some (k, v) := h
    have hk : strContains lq k = true := by
      have h2 := List.find?_some h'
      simpa using h2
    by_cases hp : strContains lq k1 = true
    · simp only [List.find?, hp] at h'
      have hkk : k1 = k ∧ v1 = v := by
        have h3 := Option.some.inj h'
        exact ⟨congrArg Prod.fst h3, congrArg Prod.snd h3⟩
      obtain ⟨e1, e2⟩ := hkk
      subst e1; subst e2
      simp [List.lookup]
    · simp only [List.find?, hp] at h'
      have hk1 : ¬ k = k1 := by
        intro he
        rw [he] at hk
        exact hp hk
      have hbeq : (k == k1) = false := by
        simp [hk1]
      simp only [List.lookup, hbeq]
      exact ih lq k v h'

/-! ### The regex fragment degenerates to literal substring matching
when the keywords contain neither `.` nor `?` -/

/-- A fully-literal branch matches a prefix of `s` exactly when the
character list is a prefix of `s`. -/
theorem matchSeq_lit : ∀ (l : List Char) (s : List Char),
    matchSeq (litBranch l) s = listPre l s := by
  intro l
  induction l with
  | nil => intro s; rfl
  | cons c l' ih =>
    intro s
    cases s with
    | nil => simp [litBranch, matchSeq, listPre]
    | cons d ds =>
      have ihds := ih ds
      simp only [litBranch, List.map_cons] at ihds ⊢
      simp [matchSeq, atomMatch, listPre, ihds]

/-- Searching an alternation of fully-literal branches is substring search
for some branch. -/
theorem searchFrom_lits : ∀ (kcs : List (List Char)) (s : List Char),
    searchFrom (kcs.map litBranch) s = kcs.any fun l => occursIn l s := by
  intro kcs s
  induction s with
  | nil =>
    show (kcs.map litBranch).any (fun b => matchSeq b []) = _
    rw [myAnyMap]
    exact myAnyCongr _ _ _ fun l _ => matchSeq_lit l []
  | cons c cs ih =>
    show (((kcs.map litBranch).any fun b => matchSeq b (c :: cs)) ||
        searchFrom (kcs.map litBranch) cs) = _
    rw [myAnyMap, ih, ← myAnyOr]
    refine myAnyCongr _ _ _ fun l _ => ?_
    rw [matchSeq_lit]
    rfl

/-- Without metacharacters the branch parser emits one mandatory literal
atom per character. -/
theorem parseBranchAux_noMeta : ∀ (l : List Char) (pend : Option (RAtom × Nat)),
    (∀ c ∈ l, ¬ c = '.' ∧ ¬ c = '?') →
    parseBranchAux pend l = Except.ok (flushPend pend ++ litBranch l) := by
  intro l
  induction l with
  | nil => intro pend _; simp [parseBranchAux, litBranch]
  | cons c cs ih =>
    intro pend h
    have hc := h c (by simp)
    have hq : (c == '?') = false := by simp [hc.2]
    have hd : (c == '.') = false := by simp [hc.1]
    simp only [parseBranchAux, hq, Bool.false_eq_true, if_false, hd,
      ih (some (RAtom.lit c, 0)) fun x hx => h x (by simp [hx])]
    simp [flushPend, litBranch]

/-- Without metacharacters a keyword parses to its literal branch. -/
theorem parseBranch_noMeta (l : List Char) (h : ∀ c ∈ l, ¬ c = '.' ∧ ¬ c = '?') :
    parseBranch l = Except.ok (litBranch l) := by
  rw [parseBranch, parseBranchAux_noMeta l none h]
  rfl

/-- Without metacharacters the joined pattern parses to the literal
alternation. -/
theorem parsePattern_noMeta : ∀ kws : List String,
    (∀ kw ∈ kws, ∀ c ∈ kw.toList, ¬ c = '.' ∧ ¬ c = '?') →
    parsePattern kws = Except.ok (kws.map fun kw => litBranch kw.toList) := by
  intro kws
  induction kws with
  | nil => intro _; rfl
  | cons kw rest ih =>
    intro h
    simp only [parsePattern, parseBranch_noMeta kw.toList (h kw (by simp)),
      ih fun x hx => h x (by simp [hx]), List.map_cons]

/-- Literal alternation search over strings. -/
theorem searchFrom_litStr (kws : List String) (s : List Char) :
    searchFrom (kws.map fun kw => litBranch kw.toList) s =
      kws.any fun kw => occursIn kw.toList s := by
  have hmap : (kws.map fun kw => litBranch kw.toList) = (kws.map String.toList).map litBranch := by
    rw [List.map_map]
    rfl
  rw [hmap, searchFrom_lits, myAnyMap]

/-- For metacharacter-free keywords, the regex row mask coincides with the
spec wording (literal case-insensitive substring over some column). -/
theorem rowKept_lits (kws : List String) (r : Row) :
    rowKept (kws.map fun kw => litBranch kw.toList) r = keptSpec kws r := by
  simp only [rowKept, keptSpec]
  refine myAnyCongr _ _ _ fun v _ => ?_
  rw [searchFrom_litStr]
  rfl

/-! ### Claims -/

/-- Claim C6: for every prior result set and every query whose lowered text
contains none of the location trigger words (bangalore, bengaluru, mumbai,
delhi, ncr), the contextual filter returns the full prior set unchanged:
a pass-through identity on the rows, not an empty no-match result. -/
theorem C6_filter_passthrough (ctx : List Row) (q : String)
    (h1 : strContains (strLower q) "bangalore" = false)
    (h2 : strContains (strLower q) "bengaluru" = false)
    (h3 : strContains (strLower q) "mumbai" = false)
    (h4 : strContains (strLower q) "delhi" = false)
    (h5 : strContains (strLower q) "ncr" = false) :
    filter_data ctx q = ctx := by
  simp [filter_data, h1, h2, h3, h4, h5]

/-- Witness for C6 at a concrete trigger-free follow-up query. -/
theorem C6_witness : filter_data [rowAcme] "sort these by value" = [rowAcme] :=
  C6_filter_passthrough [rowAcme] "sort these by value" (by decide) (by decide) (by decide)
    (by decide) (by decide)

/-- Claim C7: a query matching no sector key whose lowered tokens are all
stop words leaves an empty keyword list, and `search_broad` then returns
the entire dataset (match-everything behaviour). -/
theorem C7_stopwords_match_all (df : List Row) (q : String)
    (hsec : defaultSectorsMap.any (fun p => strContains (strLower q) p.1) = false)
    (hkw : keywords_of (strLower q) = []) :
    search_broad defaultSectorsMap df q = Except.ok df := by
  have h1 : sector_filter_of defaultSectorsMap (strLower q) = [] := by
    rw [sector_filter_of]
    exact sector_foldl_nil defaultSectorsMap [] hsec
  simp only [search_broad]
  rw [h1, hkw]
  rfl

/-- Witness for C7: the spec example `What is the` returns the whole
dataset. -/
theorem C7_witness : search_broad defaultSectorsMap [rowAcme] "What is the" =
    Except.ok [rowAcme] :=
  C7_stopwords_match_all [rowAcme] "What is the" (by decide) (by decide)

/-- Claim C9: `format_results` of the empty set is exactly the sentinel
string; otherwise the output is determined by the first 5 rows in input
order and lists at most 5 entries (`entryBlock` prints Company,
company_background, primary_sector and location). -/
theorem C9_format_results :
    format_results [] = "No matching companies found." ∧
    (∀ df : List Row, format_results df = format_results (df.take 5)) ∧
    (∀ df : List Row, ((df.take 5).map entryBlock).length ≤ 5) ∧
    (∀ df : List Row, ¬ df = [] →
      format_results df =
        "Found the following companies:\n" ++ String.join ((df.take 5).map entryBlock)) := by
  refine ⟨rfl, ?_, ?_, ?_⟩
  · intro df
    cases df with
    | nil => rfl
    | cons a t => simp [format_results, List.take_take]
  · intro df
    rw [List.length_map]
    have h := List.length_take 5 df
    omega
  · intro df h
    cases df with
    | nil => exact absurd rfl h
    | cons a t => rfl

/-- Witness for C9 at a concrete non-empty result set. -/
theorem C9_witness : format_results [rowAcme] =
    "Found the following companies:\n" ++ String.join (([rowAcme].take 5).map entryBlock) :=
  C9_format_results.2.2.2 [rowAcme] (by decide)

/-- Claim C5: whenever the lowered query contains at least one SectorMap
key, `search_broad` returns exactly the rows whose primary_sector lies in
the union of the sector lists of the matched keys, and never reaches the keyword
pass — the equality holds even when the sector-filtered set is empty. -/
theorem C5_sector_short_circuit (df : List Row) (q : String)
    (hsec : defaultSectorsMap.any (fun p => strContains (strLower q) p.1) = true) :
    search_broad defaultSectorsMap df q =
      Except.ok (df.filter fun r => defaultSectorsMap.any fun p =>
        strContains (strLower q) p.1 && strIn r.primary_sector p.2) := by
  have hne : ¬ sector_filter_of defaultSectorsMap (strLower q) = [] := by
    rw [sector_filter_of]
    exact sector_foldl_ne_nil defaultSectorsMap [] (by decide) (Or.inr hsec)
  have hE : (sector_filter_of defaultSectorsMap (strLower q)).isEmpty = false := by
    cases hcase : sector_filter_of defaultSectorsMap (strLower q) with
    | nil => exact absurd hcase hne
    | cons a t => rfl
  simp only [search_broad]
  rw [hE]
  simp only [Bool.false_eq_true, if_false]
  congr 1
  refine myFilterCongr _ _ _ fun r _ => ?_
  rw [sector_filter_of]
  rw [sector_foldl_strIn r.primary_sector defaultSectorsMap []]
  simp [strIn]

/-- Witness for C5: `top fintech startups` matches the fintech key and the
sector filter applies even though it keeps no row of this dataset. -/
theorem C5_witness :
    search_broad defaultSectorsMap [rowAcme] "top fintech startups" =
      Except.ok ([rowAcme].filter fun r => defaultSectorsMap.any fun p =>
        strContains (strLower "top fintech startups") p.1 && strIn r.primary_sector p.2) :=
  C5_sector_short_circuit [rowAcme] "top fintech startups" (by decide)

/-- Claim C10: a successfully completed turn never changes the dataset, the
lowercase-name index, the sector map or the turn-history list; the stored
current-context result set is the only session field a turn may write. -/
theorem C10_dataset_frame (bot : BotState) (tracker : MetricsTracker) (input : String)
    (lat : ℚ) :
    (process_message bot tracker input lat).toOption.map
      (fun r => (r.bot.df, r.bot.company_names, r.bot.sectors_map, r.bot.history)) =
    (process_message bot tracker input lat).toOption.map
      (fun _ => (bot.df, bot.company_names, bot.sectors_map, bot.history)) :=
  except_map_toOption_congr _ _ _ _ fun _ => rfl

/-- Claim C4: a follow-up turn (no entity matched, the input contains
`these` or `they`, a prior context is stored) outputs the filtered set but
leaves the stored context exactly as it was before the turn. -/
theorem C4_followup_preserves_context (bot : BotState) (tracker : MetricsTracker)
    (input : String) (lat : ℚ) (ctx : List Row)
    (hmatch : find_company bot.company_names (strLower (sanitize_input input)) = none)
    (hfollow : (strContains (strLower (sanitize_input input)) "these" ||
        strContains (strLower (sanitize_input input)) "they") = true)
    (hctx : bot.current_context_df = some ctx) :
    (process_message bot tracker input lat).toOption.map
      (fun r => (r.bot.current_context_df, r.response_df)) =
    some (some ctx, filter_data ctx (sanitize_input input)) := by
  obtain ⟨df, cn, sm, hist, cctx⟩ := bot
  simp only at hctx
  subst hctx
  simp only [process_message]
  rw [hmatch, hfollow]
  rfl

/-- Witness for C4: with `rowAcme` stored as context, the follow-up
`these in bangalore` narrows the output but keeps the stored context. -/
theorem C4_witness :
    (process_message botCtx initialMetrics "these in bangalore" 0).toOption.map
      (fun r => (r.bot.current_context_df, r.response_df)) =
    some (some [rowAcme], filter_data [rowAcme] (sanitize_input "these in bangalore")) :=
  C4_followup_preserves_context botCtx initialMetrics "these in bangalore" 0 [rowAcme]
    (by decide) (by decide) rfl

/-- The entity branch of `retrieve` in closed form. -/
theorem retrieve_entity (bot : BotState) (clean : String) (name : String) (isf : Bool) :
    retrieve bot clean (some name) isf =
      Except.ok (get_company_details bot.df bot.company_names name,
        some (get_company_details bot.df bot.company_names name)) := rfl

/-- Claim C1 (counterexample): on the dataset `[Ola, Ola Electric]` the
query `ola electric` contains the dataset name `Ola Electric`, yet the
entity scan stops at the earlier index key `ola` and the turn returns
the rows of Ola, not the rows whose Company is `Ola Electric`. -/
theorem C1_counterexample :
    strContains (strLower (sanitize_input "ola electric")) "ola electric" = true ∧
    strIn "Ola Electric" (botOla.df.map Row.company) = true ∧
    (process_message botOla initialMetrics "ola electric" 0).toOption.map
      (fun r => (r.matched_company, r.response_df)) = some (some "ola", [rowOla]) ∧
    ¬ [rowOla] = botOla.df.filter fun row => row.company == "Ola Electric" := by
  refine ⟨rfl, rfl, rfl, by decide⟩

/-- Claim C1 (amended): if some key of the name index occurs in the
sanitized lowered query, the turn takes the Entity-match branch and its
result set is exactly the rows whose Company equals the canonical value of
the first such key in index insertion order (dataset first-appearance
order); that result also overwrites the stored context.  (The spec-invariant
`Company non-empty` is the `canon` hypothesis; Python truthiness drops an
empty canonical name.) -/
theorem C1_amended_first_match (bot : BotState) (tracker : MetricsTracker) (input : String)
    (lat : ℚ) (k canon : String)
    (hfind : find_company bot.company_names (strLower (sanitize_input input)) = some (k, canon))
    (hcanon : ¬ canon = "") :
    (process_message bot tracker input lat).toOption.map
      (fun r => (r.matched_company, r.response_df, r.bot.current_context_df)) =
    some (some k, bot.df.filter (fun row => row.company == canon),
      some (bot.df.filter fun row => row.company == canon)) := by
  have hlook : bot.company_names.lookup k = some canon :=
    find_company_lookup bot.company_names (strLower (sanitize_input input)) k canon hfind
  have hgd : get_company_details bot.df bot.company_names k =
      bot.df.filter fun row => row.company == canon := by
    simp only [get_company_details, hlook]
    rw [if_neg hcanon]
  simp only [process_message]
  rw [hfind]
  rw [show Option.map Prod.fst (some (k, canon)) = some k from rfl]
  rw [retrieve_entity, hgd]
  rfl

/-- Witness for the amended C1 at the concrete shadowed dataset. -/
theorem C1_amended_witness :
    (process_message botOla initialMetrics "ola electric" 0).toOption.map
      (fun r => (r.matched_company, r.response_df, r.bot.current_context_df)) =
    some (some "ola", botOla.df.filter (fun row => row.company == "Ola"),
      some (botOla.df.filter fun row => row.company == "Ola")) :=
  C1_amended_first_match botOla initialMetrics "ola electric" 0 "ola" "Ola" rfl (by decide)

/-- Claim C2 (counterexample): the query `acme` takes the default reply
path (its reply is not the clarification prompt and its lowered text fails
the ambiguity condition), yet the clarification counter increments because
the formatted context contains `verify` and the default reply contains `?`. -/
theorem C2_counterexample :
    (process_message (mkChatbot [rowAcme]) initialMetrics "acme" 0).toOption.map
      (fun r => (r.tracker.clarifications_triggered, r.response == clarificationText)) =
      some (1, false) ∧
    ambiguityCond (strLower (sanitize_input "acme")) = false :=
  ⟨rfl, rfl⟩

/-- Claim C2 (amended): a successful turn increments the clarification
counter exactly when its reply contains both `?` and `verify`; the
ambiguity rule always yields such a reply (so every ambiguity-rule turn is
counted), but it is not the only counted path. -/
theorem C2_amended_clarification_flag (bot : BotState) (tracker : MetricsTracker)
    (input : String) (lat : ℚ) (r : TurnResult)
    (h : process_message bot tracker input lat = Except.ok r) :
    r.tracker.clarifications_triggered =
      tracker.clarifications_triggered + (if is_clarification_of r.response then 1 else 0) ∧
    (ambiguityCond (strLower (sanitize_input input)) = true →
      is_clarification_of r.response = true) := by
  obtain ⟨pr, hpr, hr⟩ := except_map_eq_ok h
  subst hr
  constructor
  · rfl
  · intro hamb
    show is_clarification_of
      (generate_response (sanitize_input input) (format_results pr.1)) = true
    simp only [generate_response]
    rw [hamb]
    simp only [if_true]
    decide

/-- Witness for the amended C2 at the concrete clarification turn
`suggest something good` over the empty dataset. -/
theorem C2_amended_witness :
    c2turn.tracker.clarifications_triggered =
      initialMetrics.clarifications_triggered +
        (if is_clarification_of c2turn.response then 1 else 0) ∧
    (ambiguityCond (strLower (sanitize_input "suggest something good")) = true →
      is_clarification_of c2turn.response = true) :=
  C2_amended_clarification_flag (mkChatbot []) initialMetrics "suggest something good" 0
    c2turn rfl

/-- Claim C8 (counterexample): in the keyword pass, the query `x.z` keeps
the row with value `xyzcorp` (the joined keywords are matched as a regular
expression, `.` is a wildcard), although no keyword is a literal substring
of any of its column values. -/
theorem C8_counterexample :
    keywords_of (strLower "x.z") = ["x.z"] ∧
    sector_filter_of defaultSectorsMap (strLower "x.z") = [] ∧
    search_broad defaultSectorsMap [rowXyz] "x.z" = Except.ok [rowXyz] ∧
    keptSpec ["x.z"] rowXyz = false :=
  ⟨rfl, rfl, rfl, rfl⟩

/-- Claim C8 (amended): the keyword pass matches the `|`-joined keywords as
a regular expression; when no keyword contains a regex metacharacter (`.`
or `?`), this coincides with the spec wording: a row is kept iff at least
one keyword occurs as a case-insensitive literal substring of the string
representation of at least one of its column values. -/
theorem C8_amended_keyword_regex (df : List Row) (q : String)
    (hsec : sector_filter_of defaultSectorsMap (strLower q) = [])
    (hkw : ¬ keywords_of (strLower q) = [])
    (hmeta : ∀ kw ∈ keywords_of (strLower q), ∀ c ∈ kw.toList, ¬ c = '.' ∧ ¬ c = '?') :
    search_broad defaultSectorsMap df q =
      Except.ok (df.filter fun r => keptSpec (keywords_of (strLower q)) r) := by
  have hp : parsePattern (keywords_of (strLower q)) =
      Except.ok ((keywords_of (strLower q)).map fun kw => litBranch kw.toList) :=
    parsePattern_noMeta _ hmeta
  have hK : (keywords_of (strLower q)).isEmpty = false := by
    cases hc : keywords_of (strLower q) with
    | nil => exact absurd hc hkw
    | cons a t => rfl
  simp only [search_broad]
  rw [hsec]
  simp only [List.isEmpty_nil, if_true]
  rw [hK]
  simp only [Bool.false_eq_true, if_false]
  rw [hp]
  exact congrArg Except.ok
    (myFilterCongr df _ _ fun r _ => rowKept_lits (keywords_of (strLower q)) r)

/-- Witness for the amended C8 at the metacharacter-free keyword `ride`. -/
theorem C8_amended_witness :
    search_broad defaultSectorsMap [rowAcme] "ride" =
      Except.ok ([rowAcme].filter fun r => keptSpec (keywords_of (strLower "ride")) r) :=
  C8_amended_keyword_regex [rowAcme] "ride" rfl (by decide) (by decide)

/-- Claim C3 (code-bug evidence): the query `?` makes the keyword pass
raise a regex compile error; the driver catches it, prints the
`Error: <detail>` message and keeps the session state unchanged — but no
record at all reaches the metrics tracker for that turn, so the error flag
is never set and the errors counter stays 0, contradicting the spec policy
for TurnError. -/
theorem C3_error_turn_no_metrics :
    process_message (mkChatbot [rowAcme]) initialMetrics "?" 0 =
      Except.error "nothing to repeat" ∧
    driverStep (mkChatbot [rowAcme]) initialMetrics "?" 0 =
      (mkChatbot [rowAcme], initialMetrics, "Error: nothing to repeat") ∧
    initialMetrics.errors = 0 ∧ initialMetrics.total_queries = 0 :=
  ⟨rfl, rfl, rfl, rfl⟩
